import Mathlib

/-!
# Verification of the xonsh subprocess-specification engine

A shallow embedding of the subprocess-specification and execution engine of
the `jyn514/xonsh` repository (`xonsh.procs.specs` and friends).  The engine's
implementation file is not present in the repository snapshot; only its test
suite (`tests/procs/test_specs.py`) is.  The definitions below are therefore
modelled from the specification document, with every behaviour that the test
suite pins down taken from the tests, which are the repository's own code and
hence authoritative where they speak.
-/

namespace Xonsh

/-- Modelled from the spec: the `captured` mode of a spec — one of
none (`False` in the tests, `$[]`), stdout-substitution (`"stdout"`, `$()`),
object-capture (`"object"`, `!()`), hidden-interactive-capture
(`"hiddenobject"`, `![]`). -/
inductive Captured where
  | uncapt
  | stdout
  | obj
  | hidden
  deriving DecidableEq, Repr

/-- Modelled from the spec: the command kind axis of the ExecutorSelector —
an external executable vs. an in-process callable alias. -/
inductive CmdKind where
  | external
  | callableAlias
  deriving DecidableEq, Repr

/-- Modelled from the spec: the four executor classes appearing in the tests:
`Popen` (real OS process), `PopenThread` (thread-backed process wrapper),
`ProcProxy` (unthreaded in-process proxy), `ProcProxyThread` (in-process proxy
with an owned worker thread). -/
inductive Executor where
  | popen
  | popenThread
  | procProxy
  | procProxyThread
  deriving DecidableEq, Repr

/-- Modelled from the spec: the ExecutorSelector's global-flag table (§4.3).
Given `thread_subprocs`, `capture_always` and the spec's `captured` mode,
decide whether execution is thread-backed:
`thread_subprocs=false` → never; `captured ∈ {object, stdout}` → threaded;
`captured = hidden-interactive` → threaded only if `capture_always`;
`captured = none` → never threaded. -/
def threadedPolicy (thread_subprocs capture_always : Bool) : Captured → Bool
  | .uncapt => false
  | .stdout => thread_subprocs
  | .obj => thread_subprocs
  | .hidden => thread_subprocs && capture_always

/-- Modelled from the spec: pick the executor class from the command kind and
the threading decision; callable aliases mirror the external-command column
with the in-process proxies. -/
def pickExecutor : CmdKind → Bool → Executor
  | .external, true => .popenThread
  | .external, false => .popen
  | .callableAlias, true => .procProxyThread
  | .callableAlias, false => .procProxy

/-- Is the executor class thread-backed? -/
def Executor.threadBacked : Executor → Bool
  | .popenThread => true
  | .procProxyThread => true
  | _ => false

/-- Modelled from the spec: the attribute overrides declared by a
`SpecAttrModifierAlias` (§3, §4.1).  The tests exercise exactly the
`threadable` and `force_threadable` spec attributes; a declared value is
`some b`, an undeclared one `none`. -/
structure SpecMods where
  threadable : Option Bool := none
  force_threadable : Option Bool := none
  deriving DecidableEq, Repr

/-- Modelled from the spec: an alias binding target (§3) — polymorphic over a
recursive token sequence (a command string is tokenised by the registry), a
callable, or an attribute-modifier alias.  Unresolved names are simply absent
from the registry. -/
inductive AliasTarget where
  | cmd (ts : List String)
  | callable
  | modifier (m : SpecMods)
  deriving DecidableEq, Repr

/-- Modelled from the spec: the `XONSH_SUBPROC_OUTPUT_FORMAT` configuration
flag, `stream_lines` (the default) or `list_lines` (§6). -/
inductive OutputFormat where
  | streamLines
  | listLines
  deriving DecidableEq, Repr

/-- Modelled from the spec: the immutable policy snapshot threaded through
spec construction (§9): the alias registry, the set of external executables
on the search path, and the configuration collaborator's flags. -/
structure Env where
  aliases : List (String × AliasTarget) := []
  knownCmds : List String := []
  thread_subprocs : Bool := true
  capture_always : Bool := true
  interactive : Bool := false
  subproc_output_format : OutputFormat := .streamLines
  deriving DecidableEq, Repr

/-- Look a name up in the alias registry. -/
def Env.lookupAlias (env : Env) (name : String) : Option AliasTarget :=
  (env.aliases.find? (fun p => p.1 = name)).map (·.2)

/-- Modelled from the spec: a command token — a plain string or a nested
literal list of strings, flattened into flat argv by `SubprocSpec.build`
(§4.2).  Callables enter the engine as alias targets. -/
inductive Token where
  | str (s : String)
  | sublist (ts : List String)
  deriving DecidableEq, Repr

/-- Modelled from the spec: flattening of nested literal argument lists into
flat argv (§4.2). -/
def flattenTokens : List Token → List String
  | [] => []
  | .str s :: rest => s :: flattenTokens rest
  | .sublist ts :: rest => ts ++ flattenTokens rest

/-- Modelled from the spec: one command's execution descriptor (§3): resolved
argv, first alias name encountered, threading overrides, capture mode, the
executor class chosen by the selector, capturing-pipe wiring of the two output
streams (`true` = capturing pipe, `false` = inherited/`None`), and the
background flag. -/
structure SubprocSpec where
  cmd : List String := []
  alias_name : Option String := none
  threadable : Option Bool := none
  force_threadable : Option Bool := none
  kind : CmdKind := .external
  captured : Captured := .uncapt
  cls : Executor := .popen
  stdoutPipe : Bool := false
  stderrPipe : Bool := false
  background : Bool := false
  deriving DecidableEq, Repr

/-- Modelled from the spec: build-time and run-time failures (§7). -/
inductive Err where
  | commandNotFound (cmd : String)
  | aliasCycle (cmd : String)
  deriving DecidableEq, Repr

/-- Apply a modifier alias's declared overrides to the spec being built; a
declared value overwrites the current one, an undeclared one leaves it. -/
def applyMods (m : SpecMods) (sp : SubprocSpec) : SubprocSpec :=
  { sp with
    threadable := m.threadable.orElse fun _ => sp.threadable
    force_threadable := m.force_threadable.orElse fun _ => sp.force_threadable }

/-- Record the first alias name encountered on the spec. -/
def noteAlias (name : String) (sp : SubprocSpec) : SubprocSpec :=
  { sp with alias_name := sp.alias_name.orElse fun _ => some name }

/-- Modelled from the spec: the AliasResolver (§4.1).  Repeatedly resolves the
current head token: a token-sequence target is spliced in place of the head; a
modifier target applies its overrides and resolution continues into the
trailing tokens; a callable target stops resolution with an in-process target;
a head with no alias binding stops resolution as an external command.  A
visited-name set rejects splice cycles (§9) — the repository's own test
`test_spec_modifier_alias_tree` has the same modifier alias applied twice in
one chain, so only splicing names are recorded, which loses no termination
bound because a modifier step always consumes a token.  `fuel` bounds the
number of resolution steps; `SubprocSpec.build` passes a budget that cannot
run out, since every token is consumed exactly once and each splicing alias
is spliced at most once. -/
def resolveAliases (env : Env) : Nat → List String → List String → SubprocSpec →
    Except Err SubprocSpec
  | 0, _, toks, _ => .error (.aliasCycle (toks.headD ""))
  | fuel + 1, seen, toks, sp =>
    match toks with
    | [] => .ok { sp with cmd := [] }
    | head :: rest =>
      match env.lookupAlias head with
      | none => .ok { sp with cmd := head :: rest, kind := .external }
      | some .callable =>
          .ok { noteAlias head sp with cmd := head :: rest, kind := .callableAlias }
      | some (.modifier m) =>
          resolveAliases env fuel seen rest (applyMods m (noteAlias head sp))
      | some (.cmd ts) =>
          if head ∈ seen then
            .error (.aliasCycle head)
          else
            resolveAliases env fuel (head :: seen) (ts ++ rest) (noteAlias head sp)

/-- An upper bound on how many tokens alias splicing can ever inject: the
total size of all token-sequence alias targets, plus one. -/
def aliasBudget (env : Env) : Nat :=
  env.aliases.foldl
    (fun acc p =>
      acc + (match p.2 with
             | .cmd ts => ts.length
             | _ => 1))
    1

/-- Modelled from the spec: `SubprocSpec.build` (§4.2): flatten nested literal
argument lists, then run alias resolution on the flat argv.  Redirections are
out of scope of the claims and omitted.  Note that, as the repository's own
tests pin down (`test_on_command_not_found_fires`), an unresolvable command
does not fail here: the CommandNotFound failure is raised by `run`. -/
def SubprocSpec.build (env : Env) (toks : List Token) (captured : Captured := .uncapt) :
    Except Err SubprocSpec :=
  let flat := flattenTokens toks
  resolveAliases env (aliasBudget env + flat.length) [] flat { captured := captured }

/-- Modelled from the spec: the ExecutorSelector's threading decision for one
spec (§4.3): the per-spec `threadable`/`force_threadable` overrides always
take precedence over the global flags; with the overrides unset (the default)
the global-flag table `threadedPolicy` decides. -/
def effectiveThreaded (env : Env) (sp : SubprocSpec) : Bool :=
  match sp.force_threadable with
  | some b => b
  | none =>
      sp.threadable.getD true
        && threadedPolicy env.thread_subprocs env.capture_always sp.captured

/-- Capturing-pipe wiring of the two output streams: `true` means a capturing
pipe, `false` means the stream is left inherited from the controlling
terminal (`None` in the tests). -/
structure StreamWiring where
  stdoutPipe : Bool
  stderrPipe : Bool
  deriving DecidableEq, Repr

/-- Modelled from the spec: the CaptureFormatter's stream wiring (§4.4), with
the `captured = stdout` row pinned by the repository's own test
`test_cmds_to_specs_capture_stdout_not_stderr`: there stdout gets a capturing
pipe but stderr stays inherited (`specs[0].stderr is None`).  `captured =
object` wires both streams; `captured = hidden-interactive` wires both iff
the chosen executor is thread-backed; `captured = none` wires neither. -/
def wireStreams : Captured → Bool → StreamWiring
  | .uncapt, _ => ⟨false, false⟩
  | .stdout, _ => ⟨true, false⟩
  | .obj, _ => ⟨true, true⟩
  | .hidden, threadBacked => ⟨threadBacked, threadBacked⟩

/-- Modelled from the spec: the per-pipeline finalisation of the last spec —
the executor class is chosen by the ExecutorSelector (§4.3) and the output
streams wired by the CaptureFormatter (§4.4). -/
def updateLastSpec (env : Env) (sp : SubprocSpec) : SubprocSpec :=
  let cls := pickExecutor sp.kind (effectiveThreaded env sp)
  let w := wireStreams sp.captured cls.threadBacked
  { sp with cls := cls, stdoutPipe := w.stdoutPipe, stderrPipe := w.stderrPipe }

/-- Modelled from the spec: one item of a command group sequence — a command
token group, a pipe separator `"|"`, or the background marker `"&"` (§3). -/
inductive CmdItem where
  | group (toks : List Token)
  | pipe
  | amp
  deriving DecidableEq, Repr

/-- A command group sequence ends in the background marker. -/
def isBackground (cmds : List CmdItem) : Bool :=
  match cmds.getLast? with
  | some .amp => true
  | _ => false

/-- Build one spec per command token group of the sequence, left to right. -/
def buildGroups (env : Env) (captured : Captured) :
    List CmdItem → Except Err (List SubprocSpec)
  | [] => .ok []
  | .group toks :: rest => do
      let sp ← SubprocSpec.build env toks captured
      let sps ← buildGroups env captured rest
      return sp :: sps
  | _ :: rest => buildGroups env captured rest

/-- Apply `f` to the last element of a list. -/
def setLast (f : SubprocSpec → SubprocSpec) : List SubprocSpec → List SubprocSpec
  | [] => []
  | [sp] => [f sp]
  | sp :: rest => sp :: setLast f rest

/-- Modelled from the spec: `cmds_to_specs` (§6): build one spec per command
token group, mark the last spec as background when the sequence ends in the
background marker, and finalise the last spec's executor class and stream
wiring. -/
def cmds_to_specs (env : Env) (cmds : List CmdItem) (captured : Captured) :
    Except Err (List SubprocSpec) := do
  let specs ← buildGroups env captured cmds
  let specs :=
    if isBackground cmds then setLast (fun sp => { sp with background := true }) specs
    else specs
  return setLast (updateLastSpec env) specs

/-- Modelled from the spec: the events published to the external event
collaborator (§6). -/
inductive XEvent where
  | onCommandNotFound (cmd : List String)
  deriving DecidableEq, Repr

/-- Modelled from the spec: `on_command_not_found` is published only when the
engine is running interactively (§4.1, §6). -/
def fireCommandNotFound (env : Env) (cmd : List String) : List XEvent :=
  if env.interactive then [.onCommandNotFound cmd] else []

/-- Modelled from the spec: `SubprocSpec.run` launching one spec, pinned by
the repository's own tests `test_on_command_not_found_fires` and
`test_on_command_not_found_doesnt_fire_in_non_interactive_mode`: launching an
external command whose binary cannot be found publishes the
`on_command_not_found` event (iff interactive) and raises the CommandNotFound
failure, so no process is started.  The returned list is the sequence of
events published during the launch. -/
def runSpec (env : Env) (sp : SubprocSpec) : List XEvent × Except Err Unit :=
  match sp.kind with
  | .callableAlias => ([], .ok ())
  | .external =>
    match sp.cmd.head? with
    | none => ([], .ok ())
    | some c0 =>
      if c0 ∈ env.knownCmds then ([], .ok ())
      else (fireCommandNotFound env sp.cmd, .error (.commandNotFound c0))

/-- Modelled from the spec: how a launched process finished — a normal exit
with a code, or termination by a signal (§3, §4.5). -/
inductive Outcome where
  | exited (code : Int)
  | signaled (sig : Nat)
  deriving DecidableEq, Repr

/-- Modelled from the spec: conventional OS exit-status encoding — the exit
code itself, or the negative of a terminating signal number (§4.5). -/
def Outcome.returncode : Outcome → Int
  | .exited c => c
  | .signaled s => -(s : Int)

/-- The `SIGINT` signal number on POSIX platforms. -/
def SIGINT : Nat := 2

/-- Modelled from the spec: the CommandPipeline handle (§3, §4.5): the specs
it owns, whether `.end()` has completed, and the final `returncode`. -/
structure CommandPipeline where
  specs : List SubprocSpec
  ended : Bool := false
  returncode : Option Int := none
  deriving DecidableEq, Repr

/-- Launch a pipeline: all stages started, nothing waited for yet. -/
def launchPipeline (specs : List SubprocSpec) : CommandPipeline :=
  { specs := specs }

/-- Modelled from the spec: `.end()` blocks until every stage has exited and
then finalises `returncode` from the last stage's outcome (§4.5); `ocs` is
the list of stage outcomes in stage order. -/
def endPipeline (p : CommandPipeline) (ocs : List Outcome) : CommandPipeline :=
  { p with ended := true, returncode := ocs.getLast?.map Outcome.returncode }

/-- Modelled from the spec: the CaptureFormatter's line-ending normalisation
(§4.4): every line ending — CRLF, bare carriage return, LF — becomes a single
newline. -/
def normLineEndings : List Char → List Char
  | [] => []
  | '\r' :: '\n' :: rest => '\n' :: normLineEndings rest
  | '\r' :: rest => '\n' :: normLineEndings rest
  | c :: rest => c :: normLineEndings rest

/-- Split a character list on newlines; the result always has one more part
than there are newlines. -/
def splitNl : List Char → List (List Char)
  | [] => [[]]
  | '\n' :: rest => [] :: splitNl rest
  | c :: rest =>
    match splitNl rest with
    | [] => [[c]]
    | l :: ls => (c :: l) :: ls

/-- The lines of a normalised text with terminators stripped: split on
newlines, then drop the empty part a trailing newline leaves behind (so no
spurious empty trailing element appears, and an unterminated final partial
line stays as its own last element). -/
def linesOf (t : List Char) : List (List Char) :=
  let ps := splitNl t
  match ps.getLast? with
  | some [] => ps.dropLast
  | _ => ps

/-- Modelled from the spec: the `stream_lines` output format (§4.4), with the
single-line case pinned by the repository's own test
`test_subproc_output_format`: output of `"1\n"` is expected to format to
`"1"`, so a text of at most one line is returned as that line with its
terminator stripped; texts of two or more lines are returned normalised,
keeping the presence or absence of the trailing newline. -/
def stream_lines (s : String) : String :=
  let t := normLineEndings s.data
  match linesOf t with
  | [] => ""
  | [l] => String.mk l
  | _ => String.mk t

/-- The polymorphic value of a formatted capture: a plain string or a list of
lines. -/
inductive SubprocOutput where
  | str (s : String)
  | list (ls : List String)
  deriving DecidableEq, Repr

/-- Modelled from the spec: the `list_lines` output format (§4.4), with the
single-line case pinned by the repository's own test
`test_subproc_output_format`: output of `"1\n"` is expected to format to the
plain string `"1"`, not `["1"]`, so a text of at most one line is returned as
a plain string; otherwise the normalised text is split into its lines with
terminators stripped. -/
def list_lines (s : String) : SubprocOutput :=
  match linesOf (normLineEndings s.data) with
  | [] => .str ""
  | [l] => .str (String.mk l)
  | ls => .list (ls.map String.mk)

/-- Format a captured text per the configured output format. -/
def formatOutput (fmt : OutputFormat) (s : String) : SubprocOutput :=
  match fmt with
  | .streamLines => .str (stream_lines s)
  | .listLines => list_lines s

/-- The value `run_subproc` hands back to the caller: nothing, a formatted
capture, a pipeline handle, or a build-time failure. -/
inductive RunResult where
  | none
  | out (o : SubprocOutput)
  | handle (p : CommandPipeline)
  | failed (e : Err)
  deriving DecidableEq, Repr

/-- Modelled from the spec: `run_subproc` (§4.5, §6): build the specs, launch
the pipeline, and shape the return value.  A trailing background marker makes
it return without waiting — the pipeline is not ended — handing back a handle
for `captured ∈ {object, hidden-interactive}` and nothing otherwise.  In the
foreground, `captured = stdout` ends the pipeline and returns the formatted
capture, `captured = object` returns the not-yet-ended handle for the caller
to `.end()`, `captured = hidden-interactive` ends the pipeline and returns
its handle, and `captured = none` ends it and returns nothing.  `ocs` and
`raw` stand for the stage outcomes and the raw captured text the processes
produce, which are outside the engine. -/
def run_subproc (env : Env) (cmds : List CmdItem) (captured : Captured)
    (ocs : List Outcome) (raw : String) : RunResult :=
  match cmds_to_specs env cmds captured with
  | .error e => .failed e
  | .ok specs =>
    let p := launchPipeline specs
    if isBackground cmds then
      match captured with
      | .obj => .handle p
      | .hidden => .handle p
      | _ => .none
    else
      match captured with
      | .stdout => .out (formatOutput env.subproc_output_format raw)
      | .obj => .handle p
      | .hidden => .handle (endPipeline p ocs)
      | .uncapt => .none

/-- Modelled from the spec: the CommandPipeline state machine's states
(§4.5): `building → running → {suspended ⇄ running} → ended`. -/
inductive PipeStatus where
  | building
  | running
  | suspended
  | ended
  deriving DecidableEq, Repr

/-- Modelled from the spec: the job-control events the foreground stage can
deliver while `.end()` waits: stopped by a terminal-stop signal, resumed, or
exited with an outcome (§4.5). -/
inductive PipeEvent where
  | stopped
  | continued
  | exited (oc : Outcome)
  deriving DecidableEq, Repr

/-- The pipeline state `.end()` tracks while waiting on the foreground
stage. -/
structure PipeState where
  status : PipeStatus := .running
  suspendedFlag : Bool := false
  rc : Option Int := none
  deriving DecidableEq, Repr

/-- Modelled from the spec: one transition of the CommandPipeline state
machine (§4.5): a terminal stop moves the pipeline to `suspended` and sets
the sticky `.suspended` flag, a resume moves it back to `running`, and an
exit moves it to `ended`, recording the returncode.  No transition resets
the `.suspended` flag. -/
def pipeStep (st : PipeState) : PipeEvent → PipeState
  | .stopped => { st with status := .suspended, suspendedFlag := true }
  | .continued => { st with status := .running }
  | .exited oc => { st with status := .ended, rc := some oc.returncode }

/-- Modelled from the spec: `.end()` waiting on the foreground stage — it
consumes the stage's whole event trace, so it only returns once the stage has
been resumed and has exited (§4.5). -/
def runEvents (st : PipeState) (evs : List PipeEvent) : PipeState :=
  evs.foldl pipeStep st

deriving instance DecidableEq for Except

/-! ## Helper definitions and lemmas -/

/-- The last character of a text is a newline. -/
def lastIsNewline (l : List Char) : Bool :=
  l.getLast? == some '\n'

/-- The last character of a text is a line terminator — a newline or a
carriage return. -/
def lastIsTerminator (l : List Char) : Bool :=
  l.getLast? == some '\n' || l.getLast? == some '\r'

theorem normLineEndings_ne_nil (l : List Char) (h : l ≠ []) : normLineEndings l ≠ [] := by
  induction l using normLineEndings.induct <;> simp_all [normLineEndings]

theorem normLineEndings_no_cr (l : List Char) : '\r' ∉ normLineEndings l := by
  induction l using normLineEndings.induct <;> simp_all [normLineEndings, eq_comm]

theorem getLast?_cons_of_ne_nil (a : Char) (l : List Char) (h : l ≠ []) :
    (a :: l).getLast? = l.getLast? := by
  rcases l with _ | ⟨b, t⟩
  · exact absurd rfl h
  · exact List.getLast?_cons_cons

theorem normLineEndings_last_terminator (l : List Char) :
    lastIsNewline (normLineEndings l) = lastIsTerminator l := by
  induction l using normLineEndings.induct
  case case1 =>
    simp [normLineEndings, lastIsNewline, lastIsTerminator]
  case case2 rest ih =>
    rw [normLineEndings.eq_2]
    rcases rest with _ | ⟨c, rest'⟩
    · decide
    · have hm := normLineEndings_ne_nil (c :: rest') (by simp)
      simp only [lastIsNewline, lastIsTerminator,
        getLast?_cons_of_ne_nil _ _ hm, List.getLast?_cons_cons] at ih ⊢
      exact ih
  case case3 rest hrest ih =>
    rw [normLineEndings.eq_3 rest hrest]
    rcases rest with _ | ⟨c, rest'⟩
    · decide
    · have hm := normLineEndings_ne_nil (c :: rest') (by simp)
      simp only [lastIsNewline, lastIsTerminator,
        getLast?_cons_of_ne_nil _ _ hm, List.getLast?_cons_cons] at ih ⊢
      exact ih
  case case4 c rest h1 h2 ih =>
    rw [normLineEndings.eq_4 c rest h1 h2]
    rcases rest with _ | ⟨d, rest'⟩
    · have hcr : (c == '\r') = false := by
        simpa using h2
      simp [normLineEndings, lastIsNewline, lastIsTerminator, hcr]
    · have hm := normLineEndings_ne_nil (d :: rest') (by simp)
      simp only [lastIsNewline, lastIsTerminator,
        getLast?_cons_of_ne_nil _ _ hm, List.getLast?_cons_cons] at ih ⊢
      exact ih

/-- A pipeline not yet launched, with every state field at its default. -/
def initPipeState : PipeState := {}

theorem runEvents_append (st : PipeState) (xs ys : List PipeEvent) :
    runEvents st (xs ++ ys) = runEvents (runEvents st xs) ys := by
  simp [runEvents, List.foldl_append]

theorem runEvents_flag_mono (evs : List PipeEvent) (st : PipeState)
    (h : st.suspendedFlag = true) : (runEvents st evs).suspendedFlag = true := by
  induction evs generalizing st with
  | nil => simpa [runEvents] using h
  | cons e rest ih =>
      have h' : (pipeStep st e).suspendedFlag = true := by
        cases e <;> simp [pipeStep, h]
      simpa [runEvents] using ih (pipeStep st e) h'

theorem runEvents_ended_has_exit (evs : List PipeEvent) (st : PipeState)
    (h : (runEvents st evs).status = .ended) :
    st.status = .ended ∨ ∃ oc, PipeEvent.exited oc ∈ evs := by
  induction evs generalizing st with
  | nil => left; simpa [runEvents] using h
  | cons e rest ih =>
      have h' : (runEvents (pipeStep st e) rest).status = .ended := by
        simpa [runEvents] using h
      rcases ih (pipeStep st e) h' with hst | ⟨oc, hoc⟩
      · cases e with
        | stopped => simp [pipeStep] at hst
        | continued => simp [pipeStep] at hst
        | exited oc => exact Or.inr ⟨oc, by simp⟩
      · exact Or.inr ⟨oc, by simp [hoc]⟩

/-! ## Concrete environments pinned by the test suite -/

/-- An environment whose search path holds the external executables the test
suite uses, with the configuration defaults of an interactive-less session. -/
def baseEnv : Env :=
  { knownCmds := ["pwd", "echo", "ls", "grep", "head", "python"] }

/-- `baseEnv` with the callable alias `tst` of the tests registered. -/
def aliasEnv : Env :=
  { baseEnv with aliases := [("tst", .callable)] }

/-- The modifier-alias tree of `test_spec_modifier_alias_tree`, with the two
modifier aliases declaring the conflicting values `b1` (outer, declared
twice along the chain) and `b2` (innermost, adjacent to the literal
command). -/
def modEnv (b1 b2 : Bool) : Env :=
  { baseEnv with aliases := [
      ("xouter", .modifier { threadable := some b1, force_threadable := some b1 }),
      ("xinner", .modifier { threadable := some b2, force_threadable := some b2 }),
      ("foreground", .cmd ["xouter", "midground", "f0", "f1"]),
      ("midground", .cmd ["ground", "m0", "m1"]),
      ("ground", .cmd ["xouter", "underground", "g0", "g1"]),
      ("underground", .cmd ["xinner", "echo", "u0", "u1"])] }

/-- The background command sequence of `test_run_subproc_background`. -/
def bgCmds : List CmdItem :=
  [.group [.str "echo", .str "hello"], .amp]

/-- The spec `cmds_to_specs baseEnv bgCmds .uncapt` yields. -/
def bgSpecsUncapt : List SubprocSpec :=
  [{ cmd := ["echo", "hello"], captured := .uncapt, cls := .popen, background := true }]

/-- The spec `cmds_to_specs baseEnv bgCmds .obj` yields. -/
def bgSpecsObj : List SubprocSpec :=
  [{ cmd := ["echo", "hello"], captured := .obj, cls := .popenThread,
     stdoutPipe := true, stderrPipe := true, background := true }]

/-- The spec `cmds_to_specs baseEnv bgCmds .hidden` yields. -/
def bgSpecsHidden : List SubprocSpec :=
  [{ cmd := ["echo", "hello"], captured := .hidden, cls := .popenThread,
     stdoutPipe := true, stderrPipe := true, background := true }]

/-- An interactive environment for exercising the command-not-found event. -/
def cnfEnv : Env := { baseEnv with interactive := true }

/-- The spec `SubprocSpec.build` yields for the unknown command
`xonshcommandnotfound`. -/
def cnfSpec : SubprocSpec :=
  { cmd := ["xonshcommandnotfound"], kind := .external, captured := .uncapt }

/-! ## The claims -/

/-- Claim C1: with `captured = hidden-interactive` and `thread_subprocs =
true`, the selected executor is the thread-backed wrapper (PopenThread for an
external command, ProcProxyThread for a callable alias) iff `capture_always =
true`; with `thread_subprocs = false` the real OS process or unthreaded proxy
is selected unconditionally, the callable-alias column mirroring the
external-command column.  Stated both on the selector table itself and on
`cmds_to_specs` for the test's commands. -/
theorem hidden_interactive_executor_selection :
    (∀ ca : Bool,
        pickExecutor .external (threadedPolicy true ca .hidden)
          = (if ca then .popenThread else .popen)
      ∧ pickExecutor .callableAlias (threadedPolicy true ca .hidden)
          = (if ca then .procProxyThread else .procProxy)
      ∧ pickExecutor .external (threadedPolicy false ca .hidden) = .popen
      ∧ pickExecutor .callableAlias (threadedPolicy false ca .hidden) = .procProxy)
    ∧ (∀ ts ca : Bool,
        (cmds_to_specs { baseEnv with thread_subprocs := ts, capture_always := ca }
            [.group [.str "pwd"]] .hidden).map (fun l => l.map (fun s => s.cls))
          = .ok [if ts && ca then .popenThread else .popen]
      ∧ (cmds_to_specs { aliasEnv with thread_subprocs := ts, capture_always := ca }
            [.group [.str "tst"]] .hidden).map (fun l => l.map (fun s => s.cls))
          = .ok [if ts && ca then .procProxyThread else .procProxy]) := by
  decide

/-- Claim C2, counterexample to the claim as stated: building the unknown
command `xonshcommandnotfound` does not fail — `SubprocSpec.build` succeeds
and returns a spec, exactly as the repository's own test
`test_on_command_not_found_fires` exercises it (the failure comes later, from
`run`). -/
theorem build_succeeds_on_unknown_command :
    SubprocSpec.build baseEnv [.str "xonshcommandnotfound"] .uncapt
      = .ok { cmd := ["xonshcommandnotfound"] } := by
  decide

/-- Claim C2 (amended): for every command token group whose head resolves to
no alias, callable, or executable, `SubprocSpec.build` succeeds, and the
CommandNotFound failure is raised at run time — `run` fails before any
process starts. -/
theorem command_not_found_deferred_to_run (env : Env) (name : String) (capt : Captured)
    (hA : env.lookupAlias name = none) (hK : name ∉ env.knownCmds) :
    SubprocSpec.build env [.str name] capt
        = .ok { cmd := [name], kind := .external, captured := capt }
      ∧ (runSpec env { cmd := [name], kind := .external, captured := capt }).2
        = .error (.commandNotFound name) := by
  constructor
  · simp [SubprocSpec.build, flattenTokens, resolveAliases, hA]
  · simp [runSpec, hK]

/-- Witness for C2 at the test's unknown command. -/
theorem command_not_found_deferred_to_run_witness :
    SubprocSpec.build baseEnv [.str "xonshcommandnotfound"] .obj
        = .ok { cmd := ["xonshcommandnotfound"], kind := .external, captured := .obj }
      ∧ (runSpec baseEnv { cmd := ["xonshcommandnotfound"], kind := .external, captured := .obj }).2
        = .error (.commandNotFound "xonshcommandnotfound") :=
  command_not_found_deferred_to_run baseEnv "xonshcommandnotfound" .obj (by decide) (by decide)

/-- Claim C3, counterexample to the claim as stated: `stream_lines` does not
always preserve the presence of a trailing newline, and `list_lines` does not
always return a sequence of lines — on the single-line output `"1\n"` the
repository's own test `test_subproc_output_format` expects the plain,
terminator-stripped string `"1"` from both formats. -/
theorem stream_lines_strips_single_line_terminator :
    stream_lines "1\n" = "1" ∧ stream_lines "1\n" ≠ "1\n" ∧ list_lines "1\n" = .str "1" := by
  decide

/-- Claim C3 (amended): both output formats normalise every line ending
(bare carriage return, CRLF, LF) to a single newline, and the normalisation
preserves the presence or absence of a trailing line terminator; a text of at
most one line is returned by both formats as the bare line with its
terminator stripped, and a text of two or more lines is returned by
`stream_lines` unchanged (trailing newline preserved) and by `list_lines` as
the ordered sequence of its lines, terminators stripped, an unterminated
final partial line kept and no empty trailing element inserted; in particular
`stream_lines "1\r\n2\r3\r\n" = "1\n2\n3\n"` and `list_lines` of that input
is `["1", "2", "3"]`. -/
theorem output_format_normalisation :
    (∀ l : List Char, '\r' ∉ normLineEndings l)
    ∧ (∀ l : List Char, lastIsNewline (normLineEndings l) = lastIsTerminator l)
    ∧ (stream_lines "1\r\n2\r3\r\n" = "1\n2\n3\n"
        ∧ list_lines "1\r\n2\r3\r\n" = .list ["1", "2", "3"])
    ∧ (stream_lines "1\n2\n3\n" = "1\n2\n3\n" ∧ list_lines "1\n2\n3\n" = .list ["1", "2", "3"])
    ∧ (stream_lines "1\n2\n3" = "1\n2\n3" ∧ list_lines "1\n2\n3" = .list ["1", "2", "3"])
    ∧ (stream_lines "1\n2 3" = "1\n2 3" ∧ list_lines "1\n2 3" = .list ["1", "2 3"])
    ∧ (stream_lines "1\n" = "1" ∧ list_lines "1\n" = .str "1")
    ∧ (stream_lines "1" = "1" ∧ list_lines "1" = .str "1") := by
  refine ⟨normLineEndings_no_cr, normLineEndings_last_terminator, ?_, ?_, ?_, ?_, ?_, ?_⟩ <;>
    exact ⟨by decide, by decide⟩

/-- Claim C4: in a modifier-alias chain, the override declared by the
modifier alias closest to the final literal command is applied last and is
the value on the built spec, overriding a conflicting value declared by an
outer modifier — stated on `applyMods` directly and on the full alias tree of
`test_spec_modifier_alias_tree`, where the outer modifier declares `b1`
(twice along the chain) and the innermost modifier declares `b2`. -/
theorem modifier_nearest_literal_wins :
    (∀ (sp : SubprocSpec) (a b : Bool),
        (applyMods { threadable := some b, force_threadable := some b }
            (applyMods { threadable := some a, force_threadable := some a } sp)).threadable
          = some b
      ∧ (applyMods { threadable := some b, force_threadable := some b }
            (applyMods { threadable := some a, force_threadable := some a } sp)).force_threadable
          = some b)
    ∧ (∀ b1 b2 : Bool,
        (cmds_to_specs (modEnv b1 b2) [.group [.str "foreground"]] .obj).map
            (fun l => l.map (fun s => (s.cmd, s.alias_name, s.threadable, s.force_threadable)))
          = .ok [(["echo", "u0", "u1", "g0", "g1", "m0", "m1", "f0", "f1"],
                  some "foreground", some b2, some b2)]) := by
  refine ⟨fun sp a b => ⟨rfl, rfl⟩, ?_⟩
  intro b1 b2
  cases b1 <;> cases b2 <;> rfl

/-- Claim C5: resolving an unknown command publishes the
`on_command_not_found` event exactly once when the interactive flag is true
and zero times when it is false, and raises the CommandNotFound failure to
the caller in both cases. -/
theorem command_not_found_event_fires_iff_interactive (env : Env) (name : String)
    (capt : Captured) (sp : SubprocSpec)
    (hA : env.lookupAlias name = none) (hK : name ∉ env.knownCmds)
    (hb : SubprocSpec.build env [.str name] capt = .ok sp) :
    (runSpec env sp).1
        = (if env.interactive then [.onCommandNotFound [name]] else [])
      ∧ (runSpec env sp).2 = .error (.commandNotFound name) := by
  have hsp : sp = { cmd := [name], kind := .external, captured := capt } := by
    simp [SubprocSpec.build, flattenTokens, resolveAliases, hA] at hb
    exact hb.symm
  subst hsp
  simp [runSpec, hK, fireCommandNotFound]

/-- Witness for C5 at the test's unknown command in an interactive session. -/
theorem command_not_found_event_fires_iff_interactive_witness :
    (runSpec cnfEnv cnfSpec).1
        = (if cnfEnv.interactive then [.onCommandNotFound ["xonshcommandnotfound"]] else [])
      ∧ (runSpec cnfEnv cnfSpec).2 = .error (.commandNotFound "xonshcommandnotfound") :=
  command_not_found_event_fires_iff_interactive cnfEnv "xonshcommandnotfound" .uncapt cnfSpec
    (by decide) (by decide) (by decide)

/-- Claim C6: a command group ending in the background marker makes
`run_subproc` return without waiting — the pipeline handed back is not ended —
returning no value for `captured = none`/`false` and the pipeline handle for
`captured = object` and hidden-interactive object capture. -/
theorem run_subproc_background_returns_immediately (env : Env) (cmds : List CmdItem)
    (ocs : List Outcome) (raw : String) (specsU specsO specsH : List SubprocSpec)
    (hb : isBackground cmds = true)
    (hU : cmds_to_specs env cmds .uncapt = .ok specsU)
    (hO : cmds_to_specs env cmds .obj = .ok specsO)
    (hH : cmds_to_specs env cmds .hidden = .ok specsH) :
    run_subproc env cmds .uncapt ocs raw = .none
    ∧ run_subproc env cmds .obj ocs raw = .handle (launchPipeline specsO)
    ∧ (launchPipeline specsO).ended = false
    ∧ run_subproc env cmds .hidden ocs raw = .handle (launchPipeline specsH)
    ∧ (launchPipeline specsH).ended = false := by
  refine ⟨?_, ?_, rfl, ?_, rfl⟩
  · simp [run_subproc, hU, hb]
  · simp [run_subproc, hO, hb]
  · simp [run_subproc, hH, hb]

/-- Witness for C6 at the test's background command. -/
theorem run_subproc_background_returns_immediately_witness :
    run_subproc baseEnv bgCmds .uncapt [] "" = .none
    ∧ run_subproc baseEnv bgCmds .obj [] "" = .handle (launchPipeline bgSpecsObj)
    ∧ (launchPipeline bgSpecsObj).ended = false
    ∧ run_subproc baseEnv bgCmds .hidden [] "" = .handle (launchPipeline bgSpecsHidden)
    ∧ (launchPipeline bgSpecsHidden).ended = false :=
  run_subproc_background_returns_immediately baseEnv bgCmds [] "" bgSpecsUncapt bgSpecsObj
    bgSpecsHidden (by decide) (by decide) (by decide) (by decide)

/-- Claim C7, counterexample to the claim as stated: with `captured = stdout`
the built spec's stderr stream is left inherited, not wired to a capturing
pipe, exactly as the repository's own test
`test_cmds_to_specs_capture_stdout_not_stderr` asserts. -/
theorem stdout_capture_leaves_stderr_inherited :
    (cmds_to_specs baseEnv [.group [.str "ls", .str "/root"]] .stdout).map
        (fun l => l.map (fun s => (s.stdoutPipe, s.stderrPipe)))
      = .ok [(true, false)] := by
  decide

/-- Claim C7 (amended): `captured = object` wires both output streams to
capturing pipes, `captured = stdout` wires stdout only with stderr left
inherited, and `captured = hidden-interactive` with a non-thread-backed
executor as well as `captured = none` leave both streams inherited from the
controlling terminal — stated on the wiring table and on `cmds_to_specs` for
the unthreaded callable alias of `test_procproxy_not_captured`. -/
theorem stream_capture_wiring :
    (∀ tb : Bool, wireStreams .obj tb = ⟨true, true⟩)
    ∧ (∀ tb : Bool, wireStreams .stdout tb = ⟨true, false⟩)
    ∧ wireStreams .hidden true = ⟨true, true⟩
    ∧ wireStreams .hidden false = ⟨false, false⟩
    ∧ (∀ tb : Bool, wireStreams .uncapt tb = ⟨false, false⟩)
    ∧ (cmds_to_specs { aliasEnv with thread_subprocs := false }
          [.group [.str "tst", .str "/root"]] .hidden).map
        (fun l => l.map (fun s => (s.cls, s.stdoutPipe, s.stderrPipe)))
      = .ok [(.procProxy, false, false)]
    ∧ (cmds_to_specs { aliasEnv with thread_subprocs := false }
          [.group [.str "tst", .str "/root"]] .uncapt).map
        (fun l => l.map (fun s => (s.cls, s.stdoutPipe, s.stderrPipe)))
      = .ok [(.procProxy, false, false)] := by
  decide

/-- Claim C8: a pipeline whose last command is terminated by a signal has,
after `.end()`, a returncode equal to the negative of the terminating signal
number. -/
theorem returncode_of_signal_termination (p : CommandPipeline) (ocs : List Outcome) (s : Nat)
    (h : ocs.getLast? = some (.signaled s)) :
    (endPipeline p ocs).returncode = some (-(s : Int))
    ∧ (endPipeline p ocs).ended = true := by
  simp [endPipeline, h, Outcome.returncode]

/-- Witness for C8: a process killed by SIGINT yields `returncode = -SIGINT`. -/
theorem returncode_of_sigint_witness :
    (endPipeline (launchPipeline []) [.signaled SIGINT]).returncode = some (-(SIGINT : Int))
    ∧ (endPipeline (launchPipeline []) [.signaled SIGINT]).ended = true :=
  returncode_of_signal_termination (launchPipeline []) [.signaled SIGINT] SIGINT (by decide)

/-- Claim C9: a terminal stop moves the pipeline to the suspended state and
sets the sticky `.suspended` flag, which no later event ever resets; `.end()`
reaches the ended state only once an exit event has occurred, so after a
stop–resume–exit trace the pipeline is ended with `.suspended` still true and
the returncode recorded. -/
theorem pipeline_suspension_sticky :
    (∀ (st : PipeState) (pre : List PipeEvent),
        (runEvents st (pre ++ [.stopped])).status = .suspended
      ∧ (runEvents st (pre ++ [.stopped])).suspendedFlag = true)
    ∧ (∀ (st : PipeState) (evs : List PipeEvent),
        st.suspendedFlag = true → (runEvents st evs).suspendedFlag = true)
    ∧ (∀ (st : PipeState) (evs : List PipeEvent),
        (runEvents st evs).status = .ended →
          st.status = .ended ∨ ∃ oc, PipeEvent.exited oc ∈ evs)
    ∧ (∀ (pre mid : List PipeEvent) (oc : Outcome),
        (runEvents initPipeState
            (pre ++ PipeEvent.stopped :: mid ++ [.continued, .exited oc])).status = .ended
      ∧ (runEvents initPipeState
            (pre ++ PipeEvent.stopped :: mid ++ [.continued, .exited oc])).suspendedFlag = true
      ∧ (runEvents initPipeState
            (pre ++ PipeEvent.stopped :: mid ++ [.continued, .exited oc])).rc
          = some oc.returncode) := by
  refine ⟨?_, fun st evs h => runEvents_flag_mono evs st h,
    fun st evs h => runEvents_ended_has_exit evs st h, ?_⟩
  · intro st pre
    rw [runEvents_append]
    constructor <;> simp [runEvents, pipeStep]
  · intro pre mid oc
    have hsplit : pre ++ PipeEvent.stopped :: mid ++ [PipeEvent.continued, .exited oc]
        = ((pre ++ [PipeEvent.stopped]) ++ mid) ++ [PipeEvent.continued, .exited oc] := by
      simp
    rw [hsplit, runEvents_append, runEvents_append]
    have hflag1 : (runEvents initPipeState (pre ++ [PipeEvent.stopped])).suspendedFlag
        = true := by
      rw [runEvents_append]
      rfl
    exact ⟨rfl, runEvents_flag_mono mid _ hflag1, rfl⟩

/-- Witness for C9 on a concrete stop–resume–exit trace. -/
theorem pipeline_suspension_sticky_witness :
    (runEvents { suspendedFlag := true } [PipeEvent.continued]).suspendedFlag = true
    ∧ ((({ status := .ended } : PipeState).status = PipeStatus.ended)
        ∨ ∃ oc, PipeEvent.exited oc ∈ ([] : List PipeEvent))
    ∧ (runEvents initPipeState
        ([] ++ PipeEvent.stopped :: [] ++ [.continued, .exited (.exited 0)])).status = .ended :=
  ⟨pipeline_suspension_sticky.2.1 { suspendedFlag := true } [PipeEvent.continued] rfl,
   pipeline_suspension_sticky.2.2.1 { status := .ended } [] rfl,
   (pipeline_suspension_sticky.2.2.2 [] [] (.exited 0)).1⟩

/-- Claim C10: building a command group that is a single modifier alias and
nothing else succeeds without CommandNotFound; the resulting spec has an
empty cmd list, its alias_name is the modifier's name, and the modifier's
declared overrides are applied. -/
theorem modifier_alias_alone_builds :
    ∀ b1 b2 : Bool,
      (cmds_to_specs (modEnv b1 b2) [.group [.str "xinner"]] .obj).map
          (fun l => l.map (fun s => (s.cmd, s.alias_name, s.threadable, s.force_threadable)))
        = .ok [([], some "xinner", some b2, some b2)] := by
  intro b1 b2
  cases b1 <;> cases b2 <;> rfl

end Xonsh
